import Mathlib

/-!
Verification development for the sdc-papi package importer
(`bin/importer`, the UFDS/LDIF/JSON to PAPI migration script).

The JavaScript source is shallowly embedded: JS runtime values are the
inductive `JVal`, a JS object is an association list preserving insertion
order, and every importer function (`decode`, `loadJsonPackages`,
`loadLdifPackages`, `savePapiPackages`, `main`'s exit behaviour) is
translated into a pure Lean function.  Log output (`log.warn`,
`log.error`, `log.info`) is modelled as an explicit list of events.

Modelling simplifications (none affect the theorems below):
* JS numbers are rationals plus a distinguished NaN (`Option Rat`,
  `none` = NaN); the importer does no arithmetic beyond `Number(...)`
  coercion, so IEEE-754 rounding is irrelevant here.
* `Number(...)` string parsing covers optional sign, integer and
  fraction digits with surrounding whitespace; exotic forms (hex,
  exponents, `Infinity`) are not modelled and map to NaN.
* `JSON.parse` covers objects, arrays, strings (with the common
  escapes), integers/fractions, `true`/`false`/`null`; exponents and
  `\u` escapes are not modelled (they map to a parse failure).
* Base64 values decode to the byte sequence read as code points
  (Node's `Buffer` UTF-8 re-decoding of multi-byte sequences is not
  modelled; no theorem involves base64 data).
-/

/-- JavaScript runtime value as it occurs in the importer: strings,
numbers (with NaN), booleans, null, arrays and plain objects.  An object
is an insertion-ordered association list with unique keys. -/
inductive JVal where
  | vstr (s : String)
  | vnum (n : Option Rat)
  | vbool (b : Bool)
  | vnull
  | varr (elems : List JVal)
  | vobj (fields : List (String × JVal))
  deriving Repr

/-- Raw record / JS object shape: attribute name to value, in insertion
order. -/
abbrev JRec : Type := List (String × JVal)

mutual

def beqV : JVal → JVal → Bool
  | .vstr a, .vstr b => a == b
  | .vnum a, .vnum b => a == b
  | .vbool a, .vbool b => a == b
  | .vnull, .vnull => true
  | .varr xs, .varr ys => beqA xs ys
  | .vobj xs, .vobj ys => beqF xs ys
  | _, _ => false

def beqA : List JVal → List JVal → Bool
  | [], [] => true
  | x :: xs, y :: ys => beqV x y && beqA xs ys
  | _, _ => false

def beqF : List (String × JVal) → List (String × JVal) → Bool
  | [], [] => true
  | (k1, v1) :: xs, (k2, v2) :: ys => k1 == k2 && beqV v1 v2 && beqF xs ys
  | _, _ => false

end

mutual

theorem beqV_iff : ∀ a b : JVal, beqV a b = true ↔ a = b
  | .vstr a, .vstr b => by simp [beqV]
  | .vnum a, .vnum b => by simp [beqV]
  | .vbool a, .vbool b => by simp [beqV]
  | .vnull, .vnull => by simp [beqV]
  | .varr xs, .varr ys => by simp [beqV, beqA_iff xs ys]
  | .vobj xs, .vobj ys => by simp [beqV, beqF_iff xs ys]
  | .vstr _, .vnum _ => by simp [beqV]
  | .vstr _, .vbool _ => by simp [beqV]
  | .vstr _, .vnull => by simp [beqV]
  | .vstr _, .varr _ => by simp [beqV]
  | .vstr _, .vobj _ => by simp [beqV]
  | .vnum _, .vstr _ => by simp [beqV]
  | .vnum _, .vbool _ => by simp [beqV]
  | .vnum _, .vnull => by simp [beqV]
  | .vnum _, .varr _ => by simp [beqV]
  | .vnum _, .vobj _ => by simp [beqV]
  | .vbool _, .vstr _ => by simp [beqV]
  | .vbool _, .vnum _ => by simp [beqV]
  | .vbool _, .vnull => by simp [beqV]
  | .vbool _, .varr _ => by simp [beqV]
  | .vbool _, .vobj _ => by simp [beqV]
  | .vnull, .vstr _ => by simp [beqV]
  | .vnull, .vnum _ => by simp [beqV]
  | .vnull, .vbool _ => by simp [beqV]
  | .vnull, .varr _ => by simp [beqV]
  | .vnull, .vobj _ => by simp [beqV]
  | .varr _, .vstr _ => by simp [beqV]
  | .varr _, .vnum _ => by simp [beqV]
  | .varr _, .vbool _ => by simp [beqV]
  | .varr _, .vnull => by simp [beqV]
  | .varr _, .vobj _ => by simp [beqV]
  | .vobj _, .vstr _ => by simp [beqV]
  | .vobj _, .vnum _ => by simp [beqV]
  | .vobj _, .vbool _ => by simp [beqV]
  | .vobj _, .vnull => by simp [beqV]
  | .vobj _, .varr _ => by simp [beqV]

theorem beqA_iff : ∀ xs ys : List JVal, beqA xs ys = true ↔ xs = ys
  | [], [] => by simp [beqA]
  | x :: xs, y :: ys => by simp [beqA, beqV_iff x y, beqA_iff xs ys]
  | [], _ :: _ => by simp [beqA]
  | _ :: _, [] => by simp [beqA]

theorem beqF_iff : ∀ xs ys : List (String × JVal), beqF xs ys = true ↔ xs = ys
  | [], [] => by simp [beqF]
  | (k1, v1) :: xs, (k2, v2) :: ys => by
      simp [beqF, beqV_iff v1 v2, beqF_iff xs ys, and_assoc]
  | [], _ :: _ => by simp [beqF]
  | _ :: _, [] => by simp [beqF]

end

instance : DecidableEq JVal := fun a b =>
  decidable_of_iff (beqV a b = true) (beqV_iff a b)

/-! Association-list operations modelling JS object property access
(`obj[k]`), assignment (`obj[k] = v`, which keeps the position of an
existing key and appends a new one) and removal (`delete obj[k]`). -/

def getA : JRec → String → Option JVal
  | [], _ => none
  | (k1, v1) :: rest, k => if k1 = k then some v1 else getA rest k

def setA : JRec → String → JVal → JRec
  | [], k, v => [(k, v)]
  | (k1, v1) :: rest, k, v =>
      if k1 = k then (k, v) :: rest else (k1, v1) :: setA rest k v

def delA (r : JRec) (k : String) : JRec :=
  r.filter (fun p => p.1 ≠ k)

theorem getA_setA_self (r : JRec) (k : String) (v : JVal) :
    getA (setA r k v) k = some v := by
  induction r with
  | nil => simp [setA, getA]
  | cons hd tl ih =>
      obtain ⟨k1, v1⟩ := hd
      by_cases h : k1 = k <;> simp [setA, getA, h, ih]

theorem getA_setA_ne (r : JRec) (k k2 : String) (v : JVal) (h : k ≠ k2) :
    getA (setA r k2 v) k = getA r k := by
  induction r with
  | nil => simp [setA, getA, Ne.symm h]
  | cons hd tl ih =>
      obtain ⟨k1, v1⟩ := hd
      by_cases h1 : k1 = k2 <;> by_cases h2 : k1 = k <;>
        simp_all [setA, getA, Ne.symm h]

theorem getA_delA_self (r : JRec) (k : String) :
    getA (delA r k) k = none := by
  induction r with
  | nil => simp [delA, getA]
  | cons hd tl ih =>
      obtain ⟨k1, v1⟩ := hd
      by_cases h : k1 = k <;> simp_all [delA, getA, h]

theorem getA_delA_ne (r : JRec) (k k2 : String) (h : k ≠ k2) :
    getA (delA r k2) k = getA r k := by
  induction r with
  | nil => simp [delA, getA]
  | cons hd tl ih =>
      obtain ⟨k1, v1⟩ := hd
      by_cases h1 : k1 = k2 <;> by_cases h2 : k1 = k <;>
        simp_all [delA, getA]

/-! JavaScript primitive semantics used by the importer. -/

/-- Truthiness of a JS value (ToBoolean): empty string, 0, NaN, false
and null are falsy; every array or object reference is truthy. -/
def truthyV : JVal → Bool
  | .vstr s => s ≠ ""
  | .vnum none => false
  | .vnum (some q) => q ≠ 0
  | .vbool b => b
  | .vnull => false
  | .varr _ => true
  | .vobj _ => true

/-- Truthiness of a possibly-absent property (`undefined` is falsy). -/
def truthy : Option JVal → Bool
  | none => false
  | some v => truthyV v

/-- JS strict equality (`===`) between a runtime value and a freshly
written literal, as it appears in the importer (`obj[a] === NaN`,
`obj[a] === 'true'`, `obj[a] === true`).  NaN compares unequal to
everything including itself; an array or object is never strictly equal
to a fresh literal (reference equality). -/
def strictEq : JVal → JVal → Bool
  | .vstr a, .vstr b => a == b
  | .vnum (some a), .vnum (some b) => a == b
  | .vnum _, .vnum _ => false
  | .vbool a, .vbool b => a == b
  | .vnull, .vnull => true
  | _, _ => false

/-- Strict equality of a possibly-absent property against NaN
(`obj[a] === NaN`); `undefined === NaN` is false. -/
def strictEqNaN : Option JVal → Bool
  | none => false
  | some v => strictEq v (.vnum none)

theorem strictEq_nan_eq_false (v : JVal) : strictEq v (.vnum none) = false := by
  cases v with
  | vnum n => cases n <;> rfl
  | vstr s => rfl
  | vbool b => rfl
  | vnull => rfl
  | varr xs => rfl
  | vobj xs => rfl

theorem strictEqNaN_eq_false (o : Option JVal) : strictEqNaN o = false := by
  cases o with
  | none => rfl
  | some v => simpa [strictEqNaN] using strictEq_nan_eq_false v

/-! Number coercion (the JS `Number(...)` builtin, restricted to the
value shapes the importer feeds it). -/

def isJsWs (c : Char) : Bool :=
  c = ' ' || c = '\t' || c = '\n' || c = '\r'

def digitsToNat (cs : List Char) : Nat :=
  cs.foldl (fun n c => n * 10 + (c.toNat - 48)) 0

/-- Parse of a decimal string for `Number(...)`: trimmed, optional
sign, digits with an optional fraction part; empty (after trimming)
is 0; anything else is NaN (`none`). -/
def strToNum (s : String) : Option Rat :=
  let cs := ((s.data.dropWhile isJsWs).reverse.dropWhile isJsWs).reverse
  if cs.isEmpty then some 0
  else
    let sc : Bool × List Char :=
      match cs with
      | '-' :: r => (true, r)
      | '+' :: r => (false, r)
      | r => (false, r)
    let ip := sc.2.takeWhile Char.isDigit
    let rest := sc.2.drop ip.length
    let mag : Option Rat :=
      match rest with
      | [] => if ip.isEmpty then none else some (digitsToNat ip : Rat)
      | '.' :: fp0 =>
          let fp := fp0.takeWhile Char.isDigit
          if ¬ (fp0.drop fp.length).isEmpty then none
          else if ip.isEmpty ∧ fp.isEmpty then none
          else some
            ((digitsToNat ip : Rat) + (digitsToNat fp : Rat) / ((10 : Rat) ^ fp.length))
      | _ => none
    match mag with
    | none => none
    | some q => some (if sc.1 then -q else q)

def numToString (q : Rat) : String :=
  if q.den = 1 then toString q.num else toString q.num ++ "/" ++ toString q.den

def joinComma : List String → String
  | [] => ""
  | [s] => s
  | s :: rest => s ++ "," ++ joinComma rest

mutual

/-- JS string coercion (`String(v)` / array `join(',')`), restricted to
the shapes reaching `JSON.parse` and `Number` in the importer.  A plain
object renders as the literal text `[object Object]`. -/
def jsToString : JVal → String
  | .vstr s => s
  | .vnum none => "NaN"
  | .vnum (some q) => numToString q
  | .vbool b => if b then "true" else "false"
  | .vnull => "null"
  | .varr xs => joinComma (jsToStringL xs)
  | .vobj _ => "[object Object]"

def jsToStringL : List JVal → List String
  | [] => []
  | x :: xs => jsToString x :: jsToStringL xs

end

/-- JS `Number(v)`: numbers pass through, strings are parsed, booleans
and null coerce numerically, arrays and objects go through their string
coercion first. -/
def toNumber : JVal → Option Rat
  | .vnum n => n
  | .vstr s => strToNum s
  | .vbool b => some (if b then 1 else 0)
  | .vnull => some 0
  | .varr xs => strToNum (jsToString (.varr xs))
  | .vobj xs => strToNum (jsToString (.vobj xs))

/-! Fuel-based strict JSON parser modelling `JSON.parse`.  The fuel is
an upper bound on recursion depth; `jsonParse` supplies ample fuel, and
parsing must consume the whole input (a JS `SyntaxError` is `none`). -/

def skipWs : List Char → List Char
  | c :: cs => if isJsWs c then skipWs cs else c :: cs
  | [] => []

def braceL : Char := '\x7b'
def braceR : Char := '\x7d'

def escChar (c : Char) : Option Char :=
  if c = '"' then some '"'
  else if c = '\\' then some '\\'
  else if c = '/' then some '/'
  else if c = 'n' then some '\n'
  else if c = 't' then some '\t'
  else if c = 'r' then some '\r'
  else if c = 'b' then some (Char.ofNat 8)
  else if c = 'f' then some (Char.ofNat 12)
  else none

/-- Parse of a JSON number (sign, integer digits, optional fraction). -/
def parseJNum (cs : List Char) : Option (Rat × List Char) :=
  let sc : Bool × List Char :=
    match cs with
    | '-' :: r => (true, r)
    | r => (false, r)
  let ip := sc.2.takeWhile Char.isDigit
  if ip.isEmpty then none
  else
    let rest := sc.2.drop ip.length
    let mag : Option (Rat × List Char) :=
      match rest with
      | '.' :: fp0 =>
          let fp := fp0.takeWhile Char.isDigit
          if fp.isEmpty then none
          else some
            ((digitsToNat ip : Rat) + (digitsToNat fp : Rat) / ((10 : Rat) ^ fp.length),
             fp0.drop fp.length)
      | r => some ((digitsToNat ip : Rat), r)
    match mag with
    | none => none
    | some qr => some (if sc.1 then -qr.1 else qr.1, qr.2)

mutual

def parseVal : Nat → List Char → Option (JVal × List Char)
  | 0, _ => none
  | f + 1, cs =>
    match skipWs cs with
    | [] => none
    | 'n' :: 'u' :: 'l' :: 'l' :: r => some (.vnull, r)
    | 't' :: 'r' :: 'u' :: 'e' :: r => some (.vbool true, r)
    | 'f' :: 'a' :: 'l' :: 's' :: 'e' :: r => some (.vbool false, r)
    | '"' :: r =>
        match parseJStr f [] r with
        | some (s, r2) => some (.vstr s, r2)
        | none => none
    | '[' :: r => parseArrB f (skipWs r)
    | c :: r =>
        if c = braceL then parseObjB f (skipWs r)
        else
          match parseJNum (c :: r) with
          | some (q, r2) => some (.vnum (some q), r2)
          | none => none

def parseArrB : Nat → List Char → Option (JVal × List Char)
  | 0, _ => none
  | f + 1, cs =>
    match cs with
    | ']' :: r => some (.varr [], r)
    | _ => parseItems f [] cs

def parseItems : Nat → List JVal → List Char → Option (JVal × List Char)
  | 0, _, _ => none
  | f + 1, acc, cs =>
    match parseVal f cs with
    | none => none
    | some (v, r) =>
        match skipWs r with
        | ',' :: r2 => parseItems f (acc ++ [v]) r2
        | ']' :: r2 => some (.varr (acc ++ [v]), r2)
        | _ => none

def parseObjB : Nat → List Char → Option (JVal × List Char)
  | 0, _ => none
  | f + 1, cs =>
    match cs with
    | [] => none
    | c :: r => if c = braceR then some (.vobj [], r) else parseFields f [] cs

def parseFields : Nat → JRec → List Char → Option (JVal × List Char)
  | 0, _, _ => none
  | f + 1, acc, cs =>
    match skipWs cs with
    | '"' :: r =>
        match parseJStr f [] r with
        | none => none
        | some (k, r2) =>
            match skipWs r2 with
            | ':' :: r3 =>
                match parseVal f r3 with
                | none => none
                | some (v, r4) =>
                    match skipWs r4 with
                    | ',' :: r5 => parseFields f (setA acc k v) r5
                    | c :: r5 =>
                        if c = braceR then some (.vobj (setA acc k v), r5)
                        else none
                    | [] => none
            | _ => none
    | _ => none

def parseJStr : Nat → List Char → List Char → Option (String × List Char)
  | 0, _, _ => none
  | f + 1, acc, cs =>
    match cs with
    | [] => none
    | '"' :: r => some (String.mk acc.reverse, r)
    | '\\' :: c :: r =>
        match escChar c with
        | some e => parseJStr f (e :: acc) r
        | none => none
    | c :: r => parseJStr f (c :: acc) r

end

/-- JS `JSON.parse` on a string: strict parse of the whole input. -/
def jsonParse (s : String) : Option JVal :=
  match parseVal (2 * s.length + 2) s.data with
  | some (v, rest) => if (skipWs rest).isEmpty then some v else none
  | none => none

/-! Line splitting (JS `str.split('\n')`). -/

def splitLinesC : List Char → List (List Char)
  | [] => [[]]
  | c :: r =>
    match splitLinesC r with
    | [] => [[]]
    | l :: ls => if c = '\n' then [] :: l :: ls else (c :: l) :: ls

def splitLines (s : String) : List String :=
  (splitLinesC s.data).map String.mk

/-! Base64 decoding (`new Buffer(v, 'base64')` coerced back to string);
invalid characters and padding are skipped, as Node does. -/

def b64Digit (c : Char) : Option Nat :=
  if 'A' ≤ c ∧ c ≤ 'Z' then some (c.toNat - 65)
  else if 'a' ≤ c ∧ c ≤ 'z' then some (c.toNat - 97 + 26)
  else if '0' ≤ c ∧ c ≤ '9' then some (c.toNat - 48 + 52)
  else if c = '+' then some 62
  else if c = '/' then some 63
  else none

def b64Acc : Nat → Nat → List Nat → List Nat
  | _, _, [] => []
  | bits, nbits, v :: rest =>
      let bits2 := bits * 64 + v
      let n2 := nbits + 6
      if n2 ≥ 8 then
        (bits2 / 2 ^ (n2 - 8)) % 256 :: b64Acc (bits2 % 2 ^ (n2 - 8)) (n2 - 8) rest
      else b64Acc bits2 n2 rest

def decodeB64 (s : String) : String :=
  String.mk ((b64Acc 0 0 (s.data.filterMap b64Digit)).map Char.ofNat)

/-! LDIF line handling, `loadLdifPackages` internals. -/

/-- Match of the line against the regex `^([^:]+?):(:? .+)$`: the name
is the (non-empty) text before the first colon, and the remainder after
that colon must be either a space followed by at least one character,
or (base64 form) a second colon, a space and at least one character.
Returns the two capture groups. -/
def matchLdifLine (line : String) : Option (String × String) :=
  let cs := line.data
  let name := cs.takeWhile (fun c => c ≠ ':')
  match name, cs.drop name.length with
  | [], _ => none
  | _ :: _, ':' :: r2 =>
      match r2 with
      | ':' :: ' ' :: _ :: _ => some (String.mk name, String.mk r2)
      | ' ' :: _ :: _ => some (String.mk name, String.mk r2)
      | _ => none
  | _ :: _, _ => none

/-- Extraction of the attribute value from capture group 2: a leading
colon marks a base64 value (`value.slice(2)` decoded), otherwise the
leading space is stripped (`value.slice(1)`). -/
def ldifValue (g2 : String) : String :=
  match g2.data with
  | ':' :: r => decodeB64 (String.mk (r.drop 1))
  | r => String.mk (r.drop 1)

/-! Log events (bunyan `log.warn` / `log.error` / `log.info` calls). -/

structure LogEv where
  level : String
  msg : String
  deriving DecidableEq, Repr

/-! The `decode` function of `bin/importer`, phase by phase. -/

def attrs2ignore : List String :=
  ["dn", "objectclass", "controls", "overprovision_cpu",
   "overprovision_memory", "overprovision_storage",
   "overprovision_network", "overprovision_io", "urn"]

def attrs2numerify : List String :=
  ["max_physical_memory", "max_swap", "vcpus", "cpu_cap",
   "max_lwps", "quota", "zfs_io_priority", "fss",
   "cpu_burst_ratio", "ram_ratio"]

def attrs2boolean : List String := ["active", "default"]

/-- Phase 1: `attrs2ignore.forEach(a => delete obj[a])`. -/
def delList : List String → JRec → JRec
  | [], r => r
  | a :: as, r => delList as (delA r a)

/-- One step of phase 2: `if (obj[a]) obj[a] = Number(obj[a])`. -/
def numStep (r : JRec) (a : String) : JRec :=
  match getA r a with
  | some v => if truthyV v then setA r a (.vnum (toNumber v)) else r
  | none => r

/-- Phase 2 (`attrs2numerify.forEach`): coerce, then
`if (obj[a] === NaN) log.warn(..., 'Number is NaN')`. -/
def numerifyGo : List String → JRec → JRec × List LogEv
  | [], r => (r, [])
  | a :: as, r =>
      let r1 := numStep r a
      let evs := if strictEqNaN (getA r1 a) then [⟨"warn", "Number is NaN"⟩] else []
      let rest := numerifyGo as r1
      (rest.1, evs ++ rest.2)

/-- Phase 3 (`attrs2boolean.forEach`): skip an absent attribute, else
`obj[a] = (obj[a] === 'true' || obj[a] === true)`. -/
def boolifyGo : List String → JRec → JRec
  | [], r => r
  | a :: as, r =>
      let r1 :=
        match getA r a with
        | none => r
        | some v => setA r a (.vbool (strictEq v (.vstr "true") || strictEq v (.vbool true)))
      boolifyGo as r1

/-- Phase 4: the `if (obj.networks)` block.  A truthy string is
`JSON.parse`d (parse failure: empty list plus an error log); a truthy
non-string non-array becomes the empty list plus an error log; arrays
and falsy values are left alone.  A string that parses to a non-array
is stored as parsed. -/
def networksPhase (r : JRec) : JRec × List LogEv :=
  match getA r "networks" with
  | some v =>
      if truthyV v then
        match v with
        | .vstr s =>
            match jsonParse s with
            | some p => (setA r "networks" p, [])
            | none => (setA r "networks" (.varr []),
                       [⟨"error", "Error importing networks"⟩])
        | .varr _ => (r, [])
        | _ => (setA r "networks" (.varr []),
                [⟨"error", "Error importing networks"⟩])
      else (r, [])
  | none => (r, [])

/-- Migration value for a string `owner_uuid`: `JSON.parse` result, or
a singleton list containing the raw string if the parse throws. -/
def ownerFromStr (s : String) : JVal :=
  match jsonParse s with
  | some p => p
  | none => .varr [.vstr s]

/-- Phase 5: the `if (obj.owner_uuid)` migration block.  Runs whenever
the singular key is truthy, writes `owner_uuids` (overwriting any
existing value) and deletes the singular key. -/
def ownerPhase (r : JRec) : JRec × List LogEv :=
  match getA r "owner_uuid" with
  | some v =>
      if truthyV v then
        let step : JRec × List LogEv :=
          match v with
          | .vstr s => (setA r "owner_uuids" (ownerFromStr s), [])
          | .varr xs => (setA r "owner_uuids" (.varr xs), [])
          | _ => (setA r "owner_uuids" (.varr []),
                  [⟨"error", "Error importing owners"⟩])
        (delA step.1 "owner_uuid", step.2)
      else (r, [])
  | none => (r, [])

/-- Phases 6 and 7: the `if (obj.traits)` / `if (obj.min_platform)`
blocks.  `JSON.parse` coerces its argument to a string first; a parse
failure stores an empty object and logs an error. -/
def structuredPhase (key : String) (msg : String) (r : JRec) : JRec × List LogEv :=
  match getA r key with
  | some v =>
      if truthyV v then
        match jsonParse (jsToString v) with
        | some p => (setA r key p, [])
        | none => (setA r key (.vobj []), [⟨"error", msg⟩])
      else (r, [])
  | none => (r, [])

/-- The `decode(obj, log)` function: returns the normalized record and
the log events it emitted. -/
def decode (r : JRec) : JRec × List LogEv :=
  let r0 := delList attrs2ignore r
  let p1 := numerifyGo attrs2numerify r0
  let r2 := boolifyGo attrs2boolean p1.1
  let p3 := networksPhase r2
  let p4 := ownerPhase p3.1
  let p5 := structuredPhase "traits" "Error importing traits" p4.1
  let p6 := structuredPhase "min_platform" "Error importing min_platform" p5.1
  (p6.1, p1.2 ++ p3.2 ++ p4.2 ++ p5.2 ++ p6.2)

/-- Decode as called with the shared logger: the caller's log list with
the new events appended (the JS `log` object is an append-only sink). -/
def decodeWithLog (r : JRec) (log : List LogEv) : JRec × List LogEv :=
  ((decode r).1, log ++ (decode r).2)

/-! The JSON-lines loader (`loadJsonPackages`). -/

/-- Processing of one line: `try { return decode(JSON.parse(json), log) }
catch (e) { log.error(...); return null }`.  A parse failure throws, and
so does `decode` itself when the parsed value is `null` (property
deletion on `null` raises a `TypeError`); both land in the same catch.
Any other non-object parse result passes through `decode` unchanged
(property writes on primitives are no-ops). -/
def jsonLineStep (line : String) : Option JVal × List LogEv :=
  match jsonParse line with
  | none => (none, [⟨"error", "Error parsing JSON"⟩])
  | some .vnull => (none, [⟨"error", "Error parsing JSON"⟩])
  | some (.vobj kvs) =>
      let d := decode kvs
      (some (.vobj d.1), d.2)
  | some v => (some v, [])

/-- The `loadJsonPackages` body after a successful file read: split the
text on newlines, map each line through parse+decode (`null` on error),
then `filter(function (p) { return p; })`. -/
def loadJsonPackages (input : String) : List JVal × List LogEv :=
  let steps := (splitLines input).map jsonLineStep
  (((steps.filterMap Prod.fst).filter truthyV),
   steps.foldl (fun acc s => acc ++ s.2) [])

/-! The LDIF loader (`loadLdifPackages`). -/

/-- Accumulation of one attribute into the object being assembled: a
truthy existing scalar becomes a two-element list, an existing list is
extended in place, otherwise the scalar value is stored. -/
def ldifAddAttr (lookup : JRec) (name value : String) : JRec :=
  match getA lookup name with
  | some orig =>
      if truthyV orig then
        match orig with
        | .varr xs => setA lookup name (.varr (xs ++ [.vstr value]))
        | _ => setA lookup name (.varr [orig, .vstr value])
      else setA lookup name (.vstr value)
  | none => setA lookup name (.vstr value)

/-- State of the fold over LDIF lines: emitted packages, the object
being assembled, and the log so far. -/
structure LdifSt where
  pkgs : List JVal
  lookup : JRec
  evs : List LogEv
  deriving DecidableEq, Repr

/-- One LDIF line: a blank line decodes and (when a `uuid` survives
decoding) emits the assembled object; a line matching the attribute
regex accumulates; anything else is ignored. -/
def ldifStep (st : LdifSt) (line : String) : LdifSt :=
  if line = "" then
    if st.lookup.isEmpty then st
    else
      let d := decode st.lookup
      { pkgs := if truthy (getA d.1 "uuid") then st.pkgs ++ [.vobj d.1] else st.pkgs,
        lookup := [],
        evs := st.evs ++ d.2 }
  else
    match matchLdifLine line with
    | none => st
    | some (name, g2) =>
        { st with lookup := ldifAddAttr st.lookup name (ldifValue g2) }

def ldifInit : LdifSt := ⟨[], [], []⟩

def ldifFold (ls : List String) : LdifSt :=
  ls.foldl ldifStep ldifInit

/-- The `loadLdifPackages` body after a successful file read. -/
def loadLdifPackages (input : String) : List JVal × List LogEv :=
  let st := ldifFold (splitLines input)
  (st.pkgs, st.evs)

/-! The save pipeline (`savePapiPackages`) and `main`'s exit status.

The target-store backend (`lib/backend`) and the schema validator
(`lib/validations`) are not part of this repository's sources, so they
enter the model as parameters, shaped by the spec's collaborator
contracts (create / update keyed by uuid returning ok, AlreadyExists or
an error; validate returning errors or nothing). -/

/-- Modelled from the spec: a validation error from the missing
`lib/validations` module, a (field, message) pair as consumed by
`savePapiPackages`. -/
structure ValErr where
  fieldName : String
  message : String
  deriving DecidableEq, Repr

/-- Modelled from the spec: the result channel of the missing
`lib/backend` create/update operations.  `alreadyExists` is the
condition the importer recognises via its
`err2 === 'ObjectAlreadyExistsError'` comparison. -/
inductive StoreErr where
  | alreadyExists
  | other (msg : String)
  deriving DecidableEq, Repr

/-- Modelled from the spec: behaviour of the missing `lib/backend`
module: `init` either fails or succeeds, and `createPkg` / `updatePkg`
respond per key and record. -/
structure StoreModel where
  initErr : Option String
  createPkg : Option JVal → JVal → Option StoreErr
  updatePkg : Option JVal → JVal → Option StoreErr

/-- Importer options that reach `savePapiPackages` through `config`. -/
structure ImpConfig where
  dryrun : Bool
  overwrite : Bool

/-- Store operation issued by the pipeline, with the key it used. -/
inductive StoreOp where
  | createOp (key : Option JVal) (pkg : JVal)
  | updateOp (key : Option JVal) (pkg : JVal)
  deriving DecidableEq, Repr

/-- Terminal classification of one record's processing. -/
inductive Disposition where
  | imported
  | skippedInvalid
  | skippedDuplicate
  | failed
  deriving DecidableEq, Repr

/-- Outcome of `savePkg` for one record: disposition, log events, store
operations issued, and the contribution to the `success` counter. -/
structure SaveRes where
  disp : Disposition
  evs : List LogEv
  ops : List StoreOp
  succ : Nat
  deriving DecidableEq, Repr

/-- JS property access `pkg.uuid` on an arbitrary loaded value. -/
def jProp (v : JVal) (k : String) : Option JVal :=
  match v with
  | .vobj kvs => getA kvs k
  | _ => none

/-- The `savePkg` closure inside `savePapiPackages`: validate, honour
`dryrun`, then issue `createPkg` (or `updatePkg` when `overwrite` is
set) keyed by `pkg.uuid`; an `ObjectAlreadyExistsError` is logged as a
warning, any other store error as an error, success increments the
counter. -/
def savePkg (cfg : ImpConfig) (validate : JVal → Option (List ValErr))
    (store : StoreModel) (pkg : JVal) : SaveRes :=
  match validate pkg with
  | some _ => ⟨.skippedInvalid, [⟨"error", "Error importing package"⟩], [], 0⟩
  | none =>
      if cfg.dryrun then ⟨.imported, [⟨"info", "Package imported"⟩], [], 0⟩
      else
        let key := jProp pkg "uuid"
        if cfg.overwrite then
          match store.updatePkg key pkg with
          | some .alreadyExists =>
              ⟨.skippedDuplicate, [⟨"warn", "Package already exists"⟩],
               [.updateOp key pkg], 0⟩
          | some (.other _) =>
              ⟨.failed, [⟨"error", "Error importing package"⟩],
               [.updateOp key pkg], 0⟩
          | none =>
              ⟨.imported, [⟨"info", "Package imported"⟩],
               [.updateOp key pkg], 1⟩
        else
          match store.createPkg key pkg with
          | some .alreadyExists =>
              ⟨.skippedDuplicate, [⟨"warn", "Package already exists"⟩],
               [.createOp key pkg], 0⟩
          | some (.other _) =>
              ⟨.failed, [⟨"error", "Error importing package"⟩],
               [.createOp key pkg], 0⟩
          | none =>
              ⟨.imported, [⟨"info", "Package imported"⟩],
               [.createOp key pkg], 1⟩

/-- The `savePapiPackages` function: `backend.init` failure goes to
`perror` (process exit 1, modelled as the error branch); otherwise
every package is processed in order (`vasync.forEachPipeline` is
serial) and the callback always completes normally. -/
def savePapiPackages (pkgs : List JVal) (cfg : ImpConfig)
    (validate : JVal → Option (List ValErr)) (store : StoreModel) :
    Except String (List SaveRes) :=
  match store.initErr with
  | some e => .error e
  | none => .ok (pkgs.map (savePkg cfg validate store))

/-- Exit behaviour of `main` after the loader callback: a loader error
goes to `perror` (exit 1); a `backend.init` error goes to `perror`
(exit 1); otherwise `savePapiPackages` completes and its callback runs
`process.exit(0)` unconditionally.  Returns the exit code and the
per-record results. -/
def runImport (loaded : Except String (List JVal)) (cfg : ImpConfig)
    (validate : JVal → Option (List ValErr)) (store : StoreModel) :
    Nat × List SaveRes :=
  match loaded with
  | .error _ => (1, [])
  | .ok pkgs =>
      match savePapiPackages pkgs cfg validate store with
      | .error _ => (1, [])
      | .ok results => (0, results)

/-! Helper lemmas: which keys each decode phase can touch, and the
severity of the events each phase can emit. -/

theorem delList_get_notmem (ks : List String) (r : JRec) (k : String)
    (h : k ∉ ks) : getA (delList ks r) k = getA r k := by
  induction ks generalizing r with
  | nil => rfl
  | cons a as ih =>
      simp only [List.mem_cons, not_or] at h
      simp only [delList]
      rw [ih _ h.2, getA_delA_ne _ _ _ h.1]

theorem numStep_get_ne (r : JRec) (a k : String) (h : k ≠ a) :
    getA (numStep r a) k = getA r k := by
  unfold numStep
  cases getA r a with
  | none => rfl
  | some v =>
      by_cases ht : truthyV v <;> simp [ht, getA_setA_ne _ _ _ _ h]

theorem numerifyGo_evs_nil (as : List String) (r : JRec) :
    (numerifyGo as r).2 = [] := by
  induction as generalizing r with
  | nil => rfl
  | cons a as ih => simp [numerifyGo, strictEqNaN_eq_false, ih]

theorem numerifyGo_get_notmem (as : List String) (r : JRec) (k : String)
    (h : k ∉ as) : getA (numerifyGo as r).1 k = getA r k := by
  induction as generalizing r with
  | nil => rfl
  | cons a as ih =>
      simp only [List.mem_cons, not_or] at h
      simp only [numerifyGo]
      rw [ih _ h.2, numStep_get_ne _ _ _ h.1]

theorem numerifyGo_get_truthy (as : List String) (r : JRec) (a : String)
    (v : JVal) (hmem : a ∈ as) (hnd : as.Nodup) (hv : getA r a = some v)
    (ht : truthyV v = true) :
    getA (numerifyGo as r).1 a = some (.vnum (toNumber v)) := by
  induction as generalizing r with
  | nil => cases hmem
  | cons b bs ih =>
      rcases List.nodup_cons.mp hnd with ⟨hb, hnd2⟩
      rcases List.mem_cons.mp hmem with rfl | hmem2
      · simp only [numerifyGo]
        rw [numerifyGo_get_notmem _ _ _ hb]
        unfold numStep
        rw [hv]
        simp [ht, getA_setA_self]
      · have hba : b ≠ a := fun hba => hb (hba ▸ hmem2)
        simp only [numerifyGo]
        exact ih _ hmem2 hnd2 (by rw [numStep_get_ne _ _ _ (Ne.symm hba), hv])

theorem boolifyGo_get_notmem (as : List String) (r : JRec) (k : String)
    (h : k ∉ as) : getA (boolifyGo as r) k = getA r k := by
  induction as generalizing r with
  | nil => rfl
  | cons a as ih =>
      simp only [List.mem_cons, not_or] at h
      simp only [boolifyGo]
      cases hg : getA r a with
      | none => rw [ih _ h.2]
      | some v => rw [ih _ h.2, getA_setA_ne _ _ _ _ h.1]

theorem networksPhase_get_ne (r : JRec) (k : String) (h : k ≠ "networks") :
    getA (networksPhase r).1 k = getA r k := by
  unfold networksPhase
  cases getA r "networks" with
  | none => rfl
  | some v =>
      by_cases ht : truthyV v
      · cases v with
        | vstr s =>
            rcases hj : jsonParse s with _ | p <;>
              simp [ht, hj, getA_setA_ne _ _ _ _ h]
        | varr xs => simp [ht]
        | vnum n => simp [ht, getA_setA_ne _ _ _ _ h]
        | vbool b => simp [ht, getA_setA_ne _ _ _ _ h]
        | vnull => simp [ht, getA_setA_ne _ _ _ _ h]
        | vobj kvs => simp [ht, getA_setA_ne _ _ _ _ h]
      · simp [ht]

theorem ownerPhase_get_ne (r : JRec) (k : String) (h1 : k ≠ "owner_uuid")
    (h2 : k ≠ "owner_uuids") : getA (ownerPhase r).1 k = getA r k := by
  unfold ownerPhase
  cases getA r "owner_uuid" with
  | none => rfl
  | some v =>
      by_cases ht : truthyV v
      · cases v <;>
          simp [ht, getA_delA_ne _ _ _ h1, getA_setA_ne _ _ _ _ h2]
      · simp [ht]

theorem structuredPhase_get_ne (key msg : String) (r : JRec) (k : String)
    (h : k ≠ key) : getA (structuredPhase key msg r).1 k = getA r k := by
  unfold structuredPhase
  cases getA r key with
  | none => rfl
  | some v =>
      by_cases ht : truthyV v
      · rcases hj : jsonParse (jsToString v) with _ | p <;>
          simp [ht, hj, getA_setA_ne _ _ _ _ h]
      · simp [ht]

theorem networksPhase_evs_error (r : JRec) :
    ∀ e ∈ (networksPhase r).2, e.level = "error" := by
  unfold networksPhase
  cases getA r "networks" with
  | none => simp
  | some v =>
      by_cases ht : truthyV v
      · cases v with
        | vstr s => rcases hj : jsonParse s with _ | p <;> simp [ht, hj]
        | varr xs => simp [ht]
        | vnum n => simp [ht]
        | vbool b => simp [ht]
        | vnull => simp [ht]
        | vobj kvs => simp [ht]
      · simp [ht]

theorem ownerPhase_evs_error (r : JRec) :
    ∀ e ∈ (ownerPhase r).2, e.level = "error" := by
  unfold ownerPhase
  cases getA r "owner_uuid" with
  | none => simp
  | some v =>
      by_cases ht : truthyV v
      · cases v <;> simp [ht]
      · simp [ht]

theorem structuredPhase_evs_error (key msg : String) (r : JRec) :
    ∀ e ∈ (structuredPhase key msg r).2, e.level = "error" := by
  unfold structuredPhase
  cases getA r key with
  | none => simp
  | some v =>
      by_cases ht : truthyV v
      · rcases hj : jsonParse (jsToString v) with _ | p <;> simp [ht, hj]
      · simp [ht]

theorem decode_evs_error (r : JRec) :
    ∀ e ∈ (decode r).2, e.level = "error" := by
  unfold decode
  intro e he
  simp only [numerifyGo_evs_nil, List.nil_append, List.mem_append] at he
  rcases he with ((he | he) | he) | he
  · exact networksPhase_evs_error _ e he
  · exact ownerPhase_evs_error _ e he
  · exact structuredPhase_evs_error _ _ _ e he
  · exact structuredPhase_evs_error _ _ _ e he

theorem ownerPhase_falsy (r : JRec) (h : truthy (getA r "owner_uuid") = false) :
    ownerPhase r = (r, []) := by
  unfold ownerPhase
  cases hg : getA r "owner_uuid" with
  | none => rfl
  | some v => rw [hg] at h; simp only [truthy] at h; simp [h]

theorem ownerPhase_str (r : JRec) (s : String)
    (hg : getA r "owner_uuid" = some (.vstr s)) (hs : s ≠ "") :
    ownerPhase r = (delA (setA r "owner_uuids" (ownerFromStr s)) "owner_uuid", []) := by
  unfold ownerPhase
  rw [hg]
  simp [truthyV, hs]

theorem networksPhase_falsy (r : JRec) (h : truthy (getA r "networks") = false) :
    networksPhase r = (r, []) := by
  unfold networksPhase
  cases hg : getA r "networks" with
  | none => rfl
  | some v => rw [hg] at h; simp only [truthy] at h; simp [h]

theorem networksPhase_str_parse (r : JRec) (s : String) (p : JVal)
    (hg : getA r "networks" = some (.vstr s)) (hs : s ≠ "")
    (hp : jsonParse s = some p) :
    networksPhase r = (setA r "networks" p, []) := by
  unfold networksPhase
  rw [hg]
  simp [truthyV, hs, hp]

theorem networksPhase_str_fail (r : JRec) (s : String)
    (hg : getA r "networks" = some (.vstr s)) (hs : s ≠ "")
    (hp : jsonParse s = none) :
    networksPhase r =
      (setA r "networks" (.varr []), [⟨"error", "Error importing networks"⟩]) := by
  unfold networksPhase
  rw [hg]
  simp [truthyV, hs, hp]

theorem networksPhase_arr (r : JRec) (xs : List JVal)
    (hg : getA r "networks" = some (.varr xs)) :
    networksPhase r = (r, []) := by
  unfold networksPhase
  rw [hg]
  simp [truthyV]

theorem networksPhase_other (r : JRec) (v : JVal)
    (hg : getA r "networks" = some v) (ht : truthyV v = true)
    (hstr : ∀ s, v ≠ .vstr s) (harr : ∀ xs, v ≠ .varr xs) :
    networksPhase r =
      (setA r "networks" (.varr []), [⟨"error", "Error importing networks"⟩]) := by
  unfold networksPhase
  rw [hg]
  cases v with
  | vstr s => exact absurd rfl (hstr s)
  | varr xs => exact absurd rfl (harr xs)
  | vnum n => simp [ht]
  | vbool b => simp [ht]
  | vnull => simp [ht]
  | vobj kvs => simp [ht]

set_option maxRecDepth 8000

/-! Claim C1. -/

/-- Claim C1, counterexample: for the raw record with `quota = "abc"`
(a string that does not coerce to a number), `decode` stores the NaN
value under `quota` (the field is not absent) and emits no warning at
all: the guard `obj[a] === NaN` is always false in JS, so the
`log.warn` is unreachable and NaN is silently kept. -/
theorem c1_counterexample :
    getA (decode [("uuid", JVal.vstr "u"), ("quota", JVal.vstr "abc")]).1 "quota"
      = some (JVal.vnum none) ∧
    (decode [("uuid", JVal.vstr "u"), ("quota", JVal.vstr "abc")]).2 = [] :=
  ⟨rfl, rfl⟩

/-- Claim C1, amended: for every raw record and every field of the
numeric-coercion list, a present truthy value is replaced by
`Number(value)` — the NaN value when the string does not coerce — and
the field stays present; the `Number is NaN` warning is never emitted
(every event `decode` can emit is an error-level event, and the
warn-level NaN event in particular never fires). -/
theorem c1_nan_stored (r : JRec) (a : String) (v : JVal)
    (hmem : a ∈ attrs2numerify) (hget : getA r a = some v)
    (ht : truthyV v = true) :
    getA (decode r).1 a = some (.vnum (toNumber v)) ∧
    ∀ e ∈ (decode r).2, e.level = "error" := by
  refine ⟨?_, decode_evs_error r⟩
  have hmem2 : a = "max_physical_memory" ∨ a = "max_swap" ∨ a = "vcpus" ∨
      a = "cpu_cap" ∨ a = "max_lwps" ∨ a = "quota" ∨ a = "zfs_io_priority" ∨
      a = "fss" ∨ a = "cpu_burst_ratio" ∨ a = "ram_ratio" := by
    simpa [attrs2numerify] using hmem
  clear hmem
  rcases hmem2 with rfl | rfl | rfl | rfl | rfl | rfl | rfl | rfl | rfl | rfl <;>
    (simp only [decode]
     rw [structuredPhase_get_ne _ _ _ _ (by decide),
         structuredPhase_get_ne _ _ _ _ (by decide),
         ownerPhase_get_ne _ _ (by decide) (by decide),
         networksPhase_get_ne _ _ (by decide),
         boolifyGo_get_notmem _ _ _ (by decide)]
     exact numerifyGo_get_truthy _ _ _ v (by decide) (by decide)
       (by rw [delList_get_notmem _ _ _ (by decide)]; exact hget) ht)

/-- Claim C1, witness for the amended theorem at the concrete record
with `quota = "abc"`. -/
theorem c1_nan_stored_witness :
    getA (decode [("quota", JVal.vstr "abc")]).1 "quota"
      = some (JVal.vnum (toNumber (JVal.vstr "abc"))) ∧
    ∀ e ∈ (decode [("quota", JVal.vstr "abc")]).2, e.level = "error" :=
  c1_nan_stored [("quota", JVal.vstr "abc")] "quota" (JVal.vstr "abc")
    (by decide) rfl rfl

/-! Claim C2. -/

/-- Claim C2, counterexample: decode applied to its own output is not
the identity the claim's parenthetical asserts.  For the record with
`networks = "5"`, the first decode stores the parsed number `5`; a
second decode then finds a truthy non-string non-array and replaces it
by the empty list, so the two records differ. -/
theorem c2_counterexample :
    (decode ((decode [("uuid", JVal.vstr "u"), ("networks", JVal.vstr "5")]).1)).1
      ≠ (decode [("uuid", JVal.vstr "u"), ("networks", JVal.vstr "5")]).1 := by
  intro h
  have e1 : getA
      (decode ((decode [("uuid", JVal.vstr "u"), ("networks", JVal.vstr "5")]).1)).1
      "networks" = some (JVal.varr []) := by decide
  have e2 : getA (decode [("uuid", JVal.vstr "u"), ("networks", JVal.vstr "5")]).1
      "networks" = some (JVal.vnum (some 5)) := by decide
  rw [h, e2] at e1
  simp at e1

/-- Claim C2, amended: decode is deterministic and side-effect free
apart from appending its warnings to the shared log: two calls on the
same RawRecord, whatever log contents each call starts from, produce
the identical record and append the identical event sequence. -/
theorem c2_deterministic (r : JRec) (log1 log2 : List LogEv) :
    (decodeWithLog r log1).1 = (decodeWithLog r log2).1 ∧
    (decodeWithLog r log1).2.drop log1.length
      = (decodeWithLog r log2).2.drop log2.length := by
  simp [decodeWithLog]

/-! Decode-level helper lemmas for the owner and networks fields. -/

theorem ownerPhase_get_falsy (r : JRec) (k : String)
    (h : truthy (getA r "owner_uuid") = false) :
    getA (ownerPhase r).1 k = getA r k := by
  unfold ownerPhase
  cases hg : getA r "owner_uuid" with
  | none => rfl
  | some v => rw [hg] at h; simp only [truthy] at h; simp [h]

theorem ownerPhase_get1_str_uuids (r : JRec) (s : String)
    (hg : getA r "owner_uuid" = some (.vstr s)) (hs : s ≠ "") :
    getA (ownerPhase r).1 "owner_uuids" = some (ownerFromStr s) := by
  unfold ownerPhase
  rw [hg]
  simp only [truthyV, ne_eq, hs, not_false_eq_true, decide_True, if_true]
  rw [getA_delA_ne _ _ _ (by decide), getA_setA_self]

theorem ownerPhase_get1_str_uuid (r : JRec) (s : String)
    (hg : getA r "owner_uuid" = some (.vstr s)) (hs : s ≠ "") :
    getA (ownerPhase r).1 "owner_uuid" = none := by
  unfold ownerPhase
  rw [hg]
  simp only [truthyV, ne_eq, hs, not_false_eq_true, decide_True, if_true]
  rw [getA_delA_self]

theorem decode_pre_owner (r : JRec) :
    getA (networksPhase (boolifyGo attrs2boolean
        (numerifyGo attrs2numerify (delList attrs2ignore r)).1)).1 "owner_uuid"
      = getA r "owner_uuid" := by
  rw [networksPhase_get_ne _ _ (by decide), boolifyGo_get_notmem _ _ _ (by decide),
      numerifyGo_get_notmem _ _ _ (by decide), delList_get_notmem _ _ _ (by decide)]

theorem decode_pre_owners (r : JRec) :
    getA (networksPhase (boolifyGo attrs2boolean
        (numerifyGo attrs2numerify (delList attrs2ignore r)).1)).1 "owner_uuids"
      = getA r "owner_uuids" := by
  rw [networksPhase_get_ne _ _ (by decide), boolifyGo_get_notmem _ _ _ (by decide),
      numerifyGo_get_notmem _ _ _ (by decide), delList_get_notmem _ _ _ (by decide)]

theorem decode_owner_falsy (r : JRec)
    (h : truthy (getA r "owner_uuid") = false) :
    getA (decode r).1 "owner_uuids" = getA r "owner_uuids" := by
  have hX : truthy (getA (networksPhase (boolifyGo attrs2boolean
      (numerifyGo attrs2numerify (delList attrs2ignore r)).1)).1 "owner_uuid")
      = false := by
    rw [decode_pre_owner]; exact h
  simp only [decode]
  rw [structuredPhase_get_ne _ _ _ _ (by decide),
      structuredPhase_get_ne _ _ _ _ (by decide),
      ownerPhase_get_falsy _ _ hX]
  exact decode_pre_owners r

theorem decode_owner_str (r : JRec) (s : String)
    (hg : getA r "owner_uuid" = some (.vstr s)) (hs : s ≠ "") :
    getA (decode r).1 "owner_uuids" = some (ownerFromStr s) ∧
    getA (decode r).1 "owner_uuid" = none := by
  have hX : getA (networksPhase (boolifyGo attrs2boolean
      (numerifyGo attrs2numerify (delList attrs2ignore r)).1)).1 "owner_uuid"
      = some (.vstr s) := by
    rw [decode_pre_owner]; exact hg
  constructor
  · simp only [decode]
    rw [structuredPhase_get_ne _ _ _ _ (by decide),
        structuredPhase_get_ne _ _ _ _ (by decide),
        ownerPhase_get1_str_uuids _ _ hX hs]
  · simp only [decode]
    rw [structuredPhase_get_ne _ _ _ _ (by decide),
        structuredPhase_get_ne _ _ _ _ (by decide),
        ownerPhase_get1_str_uuid _ _ hX hs]

theorem networksPhase_get1_falsy (r : JRec)
    (h : truthy (getA r "networks") = false) : (networksPhase r).1 = r := by
  rw [networksPhase_falsy r h]

theorem networksPhase_get1_str_parse (r : JRec) (s : String) (p : JVal)
    (hg : getA r "networks" = some (.vstr s)) (hs : s ≠ "")
    (hp : jsonParse s = some p) :
    (networksPhase r).1 = setA r "networks" p := by
  rw [networksPhase_str_parse r s p hg hs hp]

theorem networksPhase_get1_str_fail (r : JRec) (s : String)
    (hg : getA r "networks" = some (.vstr s)) (hs : s ≠ "")
    (hp : jsonParse s = none) :
    (networksPhase r).1 = setA r "networks" (.varr []) := by
  rw [networksPhase_str_fail r s hg hs hp]

theorem networksPhase_evs_str_fail (r : JRec) (s : String)
    (hg : getA r "networks" = some (.vstr s)) (hs : s ≠ "")
    (hp : jsonParse s = none) :
    (networksPhase r).2 = [⟨"error", "Error importing networks"⟩] := by
  rw [networksPhase_str_fail r s hg hs hp]

theorem networksPhase_get1_arr (r : JRec) (xs : List JVal)
    (hg : getA r "networks" = some (.varr xs)) : (networksPhase r).1 = r := by
  rw [networksPhase_arr r xs hg]

theorem networksPhase_get1_other (r : JRec) (v : JVal)
    (hg : getA r "networks" = some v) (ht : truthyV v = true)
    (hstr : ∀ s, v ≠ .vstr s) (harr : ∀ xs, v ≠ .varr xs) :
    (networksPhase r).1 = setA r "networks" (.varr []) := by
  rw [networksPhase_other r v hg ht hstr harr]

theorem networksPhase_evs_other (r : JRec) (v : JVal)
    (hg : getA r "networks" = some v) (ht : truthyV v = true)
    (hstr : ∀ s, v ≠ .vstr s) (harr : ∀ xs, v ≠ .varr xs) :
    (networksPhase r).2 = [⟨"error", "Error importing networks"⟩] := by
  rw [networksPhase_other r v hg ht hstr harr]

theorem decode_pre_networks (r : JRec) :
    getA (boolifyGo attrs2boolean
        (numerifyGo attrs2numerify (delList attrs2ignore r)).1) "networks"
      = getA r "networks" := by
  rw [boolifyGo_get_notmem _ _ _ (by decide),
      numerifyGo_get_notmem _ _ _ (by decide), delList_get_notmem _ _ _ (by decide)]

theorem decode_networks_after (r2 : JRec) :
    getA (structuredPhase "min_platform" "Error importing min_platform"
        (structuredPhase "traits" "Error importing traits"
          (ownerPhase (networksPhase r2).1).1).1).1 "networks"
      = getA (networksPhase r2).1 "networks" := by
  rw [structuredPhase_get_ne _ _ _ _ (by decide),
      structuredPhase_get_ne _ _ _ _ (by decide),
      ownerPhase_get_ne _ _ (by decide) (by decide)]

theorem decode_networks_evs_mem (r : JRec) (e : LogEv)
    (he : e ∈ (networksPhase (boolifyGo attrs2boolean
        (numerifyGo attrs2numerify (delList attrs2ignore r)).1)).2) :
    e ∈ (decode r).2 := by
  simp only [decode, numerifyGo_evs_nil, List.nil_append, List.mem_append]
  exact Or.inl (Or.inl (Or.inl he))

/-! Claim C5. -/

/-- Claim C5, counterexample: the decode source has no guard on an
existing plural key — for a raw record carrying both
`owner_uuids = ["y"]` and `owner_uuid = "x"`, the migration runs anyway
and overwrites the plural value with `["x"]`. -/
theorem c5_counterexample :
    getA [("uuid", JVal.vstr "u"), ("owner_uuids", JVal.varr [JVal.vstr "y"]),
          ("owner_uuid", JVal.vstr "x")] "owner_uuids"
      = some (JVal.varr [JVal.vstr "y"]) ∧
    getA (decode [("uuid", JVal.vstr "u"),
          ("owner_uuids", JVal.varr [JVal.vstr "y"]),
          ("owner_uuid", JVal.vstr "x")]).1 "owner_uuids"
      = some (JVal.varr [JVal.vstr "x"]) := by
  exact ⟨rfl, by decide⟩

/-- Claim C5, amended: decode leaves an existing `owner_uuids` value
unchanged exactly when the singular `owner_uuid` attribute is absent or
falsy; whenever a truthy string `owner_uuid` is present the migration
runs unconditionally, overwriting any existing `owner_uuids` with the
migrated value and deleting the singular key. -/
theorem c5_migration_overwrites (r : JRec) :
    (truthy (getA r "owner_uuid") = false →
      getA (decode r).1 "owner_uuids" = getA r "owner_uuids") ∧
    (∀ s, getA r "owner_uuid" = some (.vstr s) → s ≠ "" →
      getA (decode r).1 "owner_uuids" = some (ownerFromStr s) ∧
      getA (decode r).1 "owner_uuid" = none) :=
  ⟨decode_owner_falsy r, fun s hg hs => decode_owner_str r s hg hs⟩

/-- Claim C5, witness for the amended theorem: a record without the
singular key keeps its `owner_uuids`, and a record with both keys gets
the migrated value. -/
theorem c5_migration_overwrites_witness :
    (getA (decode [("owner_uuids", JVal.varr [JVal.vstr "y"])]).1 "owner_uuids"
      = getA [("owner_uuids", JVal.varr [JVal.vstr "y"])] "owner_uuids") ∧
    (getA (decode [("owner_uuid", JVal.vstr "x"),
        ("owner_uuids", JVal.varr [JVal.vstr "y"])]).1 "owner_uuids"
      = some (ownerFromStr "x") ∧
     getA (decode [("owner_uuid", JVal.vstr "x"),
        ("owner_uuids", JVal.varr [JVal.vstr "y"])]).1 "owner_uuid" = none) :=
  ⟨(c5_migration_overwrites [("owner_uuids", JVal.varr [JVal.vstr "y"])]).1
      (by decide),
   (c5_migration_overwrites [("owner_uuid", JVal.vstr "x"),
      ("owner_uuids", JVal.varr [JVal.vstr "y"])]).2 "x" rfl (by decide)⟩

/-! Claim C7. -/

/-- Claim C7: a legacy string `owner_uuid = "abc"` (not JSON) migrates
to `owner_uuids = ["abc"]`; a JSON-list string `owner_uuid`
decodes to the parsed list; in both cases the singular key is gone. -/
theorem c7_legacy_owner_migration (r : JRec) :
    (getA r "owner_uuid" = some (.vstr "abc") →
      getA (decode r).1 "owner_uuids" = some (.varr [.vstr "abc"]) ∧
      getA (decode r).1 "owner_uuid" = none) ∧
    (getA r "owner_uuid" = some (.vstr "[\"a\",\"b\"]") →
      getA (decode r).1 "owner_uuids" = some (.varr [.vstr "a", .vstr "b"]) ∧
      getA (decode r).1 "owner_uuid" = none) := by
  constructor
  · intro hg
    have h := decode_owner_str r "abc" hg (by decide)
    have ho : ownerFromStr "abc" = .varr [.vstr "abc"] := by decide
    rw [ho] at h
    exact h
  · intro hg
    have h := decode_owner_str r "[\"a\",\"b\"]" hg (by decide)
    have ho : ownerFromStr "[\"a\",\"b\"]" = .varr [.vstr "a", .vstr "b"] := by
      decide
    rw [ho] at h
    exact h

/-- Claim C7, witness at two concrete one-field records. -/
theorem c7_legacy_owner_migration_witness :
    (getA (decode [("owner_uuid", JVal.vstr "abc")]).1 "owner_uuids"
      = some (.varr [.vstr "abc"]) ∧
     getA (decode [("owner_uuid", JVal.vstr "abc")]).1 "owner_uuid" = none) ∧
    (getA (decode [("owner_uuid", JVal.vstr "[\"a\",\"b\"]")]).1 "owner_uuids"
      = some (.varr [.vstr "a", .vstr "b"]) ∧
     getA (decode [("owner_uuid", JVal.vstr "[\"a\",\"b\"]")]).1 "owner_uuid"
      = none) :=
  ⟨(c7_legacy_owner_migration [("owner_uuid", JVal.vstr "abc")]).1 rfl,
   (c7_legacy_owner_migration [("owner_uuid", JVal.vstr "[\"a\",\"b\"]")]).2 rfl⟩

/-! Claim C6. -/

/-- Claim C6, counterexample: for the raw record with
`networks = "7"`, the string `"7"` parses as JSON to the number `7`,
which the code stores as-is — the decoded `networks` field is a number,
not a list, contradicting both the \"parsed non-list is replaced by the
empty list\" and the \"networks is always a list\" parts of the claim. -/
theorem c6_counterexample :
    getA (decode [("uuid", JVal.vstr "u"), ("networks", JVal.vstr "7")]).1
      "networks" = some (JVal.vnum (some 7)) := by
  decide

/-- Claim C6, amended: for a truthy string `networks` value, decode
attempts a JSON parse — on failure `networks` becomes the empty list
and an error is logged, but on success the parsed value is stored even
when it is not a list; a truthy non-string non-array value becomes the
empty list with an error; a falsy value (such as the empty string) is
left untouched. -/
theorem c6_networks (r : JRec) :
    (∀ s, getA r "networks" = some (.vstr s) → s ≠ "" → jsonParse s = none →
      getA (decode r).1 "networks" = some (.varr []) ∧
      (⟨"error", "Error importing networks"⟩ : LogEv) ∈ (decode r).2) ∧
    (∀ s p, getA r "networks" = some (.vstr s) → s ≠ "" → jsonParse s = some p →
      getA (decode r).1 "networks" = some p) ∧
    (∀ v, getA r "networks" = some v → truthyV v = true →
      (∀ s, v ≠ .vstr s) → (∀ xs, v ≠ .varr xs) →
      getA (decode r).1 "networks" = some (.varr []) ∧
      (⟨"error", "Error importing networks"⟩ : LogEv) ∈ (decode r).2) ∧
    (truthy (getA r "networks") = false →
      getA (decode r).1 "networks" = getA r "networks") := by
  refine ⟨?_, ?_, ?_, ?_⟩
  · intro s hg hs hp
    have hg2 : getA (boolifyGo attrs2boolean
        (numerifyGo attrs2numerify (delList attrs2ignore r)).1) "networks"
        = some (.vstr s) := by rw [decode_pre_networks]; exact hg
    constructor
    · simp only [decode]
      rw [decode_networks_after, networksPhase_get1_str_fail _ _ hg2 hs hp,
          getA_setA_self]
    · apply decode_networks_evs_mem
      rw [networksPhase_evs_str_fail _ _ hg2 hs hp]
      simp
  · intro s p hg hs hp
    have hg2 : getA (boolifyGo attrs2boolean
        (numerifyGo attrs2numerify (delList attrs2ignore r)).1) "networks"
        = some (.vstr s) := by rw [decode_pre_networks]; exact hg
    simp only [decode]
    rw [decode_networks_after, networksPhase_get1_str_parse _ _ p hg2 hs hp,
        getA_setA_self]
  · intro v hg ht hstr harr
    have hg2 : getA (boolifyGo attrs2boolean
        (numerifyGo attrs2numerify (delList attrs2ignore r)).1) "networks"
        = some v := by rw [decode_pre_networks]; exact hg
    constructor
    · simp only [decode]
      rw [decode_networks_after, networksPhase_get1_other _ _ hg2 ht hstr harr,
          getA_setA_self]
    · apply decode_networks_evs_mem
      rw [networksPhase_evs_other _ _ hg2 ht hstr harr]
      simp
  · intro h
    have hg2 : truthy (getA (boolifyGo attrs2boolean
        (numerifyGo attrs2numerify (delList attrs2ignore r)).1) "networks")
        = false := by rw [decode_pre_networks]; exact h
    simp only [decode]
    rw [decode_networks_after, networksPhase_get1_falsy _ hg2,
        decode_pre_networks]

/-- Claim C6, witness for the amended theorem: a non-JSON string, a
string parsing to the empty list, a truthy boolean, and an absent
attribute. -/
theorem c6_networks_witness :
    (getA (decode [("networks", JVal.vstr "nope")]).1 "networks"
      = some (.varr []) ∧
     (⟨"error", "Error importing networks"⟩ : LogEv)
      ∈ (decode [("networks", JVal.vstr "nope")]).2) ∧
    getA (decode [("networks", JVal.vstr "[]")]).1 "networks"
      = some (.varr []) ∧
    (getA (decode [("networks", JVal.vbool true)]).1 "networks"
      = some (.varr []) ∧
     (⟨"error", "Error importing networks"⟩ : LogEv)
      ∈ (decode [("networks", JVal.vbool true)]).2) ∧
    getA (decode ([] : JRec)).1 "networks" = getA ([] : JRec) "networks" :=
  ⟨(c6_networks [("networks", JVal.vstr "nope")]).1 "nope" rfl (by decide)
      (by decide),
   (c6_networks [("networks", JVal.vstr "[]")]).2.1 "[]" (.varr []) rfl
      (by decide) (by decide),
   (c6_networks [("networks", JVal.vbool true)]).2.2.1 (JVal.vbool true) rfl
      rfl (fun s h => JVal.noConfusion h) (fun xs h => JVal.noConfusion h),
   (c6_networks ([] : JRec)).2.2.2 rfl⟩

/-! Claim C3. -/

/-- Claim C3, counterexample: a run whose single record fails with a
store error other than key-already-exists still exits 0.  The source
only routes loader and `backend.init` errors to `perror`/`process.exit(1)`;
per-record store failures are logged and the final callback runs
`process.exit(0)` unconditionally. -/
theorem c3_counterexample :
    (runImport (.ok [JVal.vobj [("uuid", JVal.vstr "u")]]) ⟨false, false⟩
      (fun _ => none)
      ⟨none, fun _ _ => some (.other "InternalError"), fun _ _ => none⟩).1 = 0 ∧
    ((runImport (.ok [JVal.vobj [("uuid", JVal.vstr "u")]]) ⟨false, false⟩
      (fun _ => none)
      ⟨none, fun _ _ => some (.other "InternalError"),
       fun _ _ => none⟩).2).map SaveRes.disp = [.failed] := by
  exact ⟨rfl, rfl⟩

/-- Claim C3, amended: the run exits 0 exactly when the source loader
succeeded and `backend.init` succeeded; per-record dispositions —
including `failed` — have no influence on the exit status. -/
theorem c3_exit_status (loaded : Except String (List JVal)) (cfg : ImpConfig)
    (validate : JVal → Option (List ValErr)) (store : StoreModel) :
    (runImport loaded cfg validate store).1 = 0 ↔
      (∃ pkgs, loaded = .ok pkgs) ∧ store.initErr = none := by
  cases loaded with
  | error e => simp [runImport]
  | ok pkgs =>
      cases hi : store.initErr with
      | none => simp [runImport, savePapiPackages, hi]
      | some e => simp [runImport, savePapiPackages, hi]

/-! Claim C4. -/

/-- Claim C4: with `overwrite` unset (and outside dry-run), the
pipeline issues exactly one create — never an update — keyed by the
record's `uuid` for every record that passes validation, and whenever
the store reports the key already exists the record's outcome is
`skippedDuplicate` with a warn-level (not error-level) log line. -/
theorem c4_create_only (cfg : ImpConfig) (validate : JVal → Option (List ValErr))
    (store : StoreModel) (pkg : JVal) (ho : cfg.overwrite = false)
    (hd : cfg.dryrun = false) (hv : validate pkg = none) :
    (savePkg cfg validate store pkg).ops
      = [.createOp (jProp pkg "uuid") pkg] ∧
    (store.createPkg (jProp pkg "uuid") pkg = some .alreadyExists →
      (savePkg cfg validate store pkg).disp = .skippedDuplicate ∧
      (savePkg cfg validate store pkg).evs
        = [⟨"warn", "Package already exists"⟩]) := by
  unfold savePkg
  rw [hv, hd, ho]
  constructor
  · cases hc : store.createPkg (jProp pkg "uuid") pkg with
    | none => simp [hc]
    | some e => cases e <;> simp [hc]
  · intro hc
    simp [hc]

/-- Claim C4, witness: one valid record against a store that reports
the key already exists. -/
theorem c4_create_only_witness :
    (savePkg ⟨false, false⟩ (fun _ => none)
        ⟨none, fun _ _ => some .alreadyExists, fun _ _ => none⟩
        (JVal.vobj [("uuid", JVal.vstr "u")])).ops
      = [.createOp (jProp (JVal.vobj [("uuid", JVal.vstr "u")]) "uuid")
          (JVal.vobj [("uuid", JVal.vstr "u")])] ∧
    ((savePkg ⟨false, false⟩ (fun _ => none)
        ⟨none, fun _ _ => some .alreadyExists, fun _ _ => none⟩
        (JVal.vobj [("uuid", JVal.vstr "u")])).disp
      = .skippedDuplicate ∧
     (savePkg ⟨false, false⟩ (fun _ => none)
        ⟨none, fun _ _ => some .alreadyExists, fun _ _ => none⟩
        (JVal.vobj [("uuid", JVal.vstr "u")])).evs
      = [⟨"warn", "Package already exists"⟩]) :=
  ⟨(c4_create_only ⟨false, false⟩ (fun _ => none)
      ⟨none, fun _ _ => some .alreadyExists, fun _ _ => none⟩
      (JVal.vobj [("uuid", JVal.vstr "u")]) rfl rfl rfl).1,
   (c4_create_only ⟨false, false⟩ (fun _ => none)
      ⟨none, fun _ _ => some .alreadyExists, fun _ _ => none⟩
      (JVal.vobj [("uuid", JVal.vstr "u")]) rfl rfl rfl).2 rfl⟩

/-! Claim C8. -/

/-- Claim C8: the JSON-lines loader handles each line independently — a
blank line yields no record, any line that fails to parse yields no
record and only an error log (the load is not aborted), and the
two-line input of one well-formed object and one malformed line loads
exactly the one decoded record. -/
theorem c8_json_lines :
    (jsonLineStep "").1 = none ∧
    (∀ l, jsonParse l = none →
      jsonLineStep l = (none, [⟨"error", "Error parsing JSON"⟩])) ∧
    (loadJsonPackages "\x7b\"uuid\": \"u\"\x7d\nnot json").1
      = [JVal.vobj [("uuid", JVal.vstr "u")]] := by
  refine ⟨rfl, ?_, by decide⟩
  intro l hp
  simp [jsonLineStep, hp]

/-- Claim C8, witness at the malformed line of the example input. -/
theorem c8_json_lines_witness :
    jsonLineStep "not json" = (none, [⟨"error", "Error parsing JSON"⟩]) :=
  c8_json_lines.2.1 "not json" (by decide)

/-! Claim C9. -/

/-- Claim C9, counterexample: the accumulation guard `if (orig)` tests
truthiness, not presence.  A base64 attribute line with an empty
payload (`networks:: A` — a single base64 character decodes to zero
bytes, the empty string) stores the falsy empty-string scalar, and the
next `networks: n2` line then overwrites it instead of turning it into
a two-element list, contradicting the claim's universal "first
repetition turns the scalar into a two-element list rather than
overwriting it". -/
theorem c9_counterexample :
    (ldifFold ["networks:: A"]).lookup = [("networks", JVal.vstr "")] ∧
    (ldifFold ["networks:: A", "networks: n2"]).lookup
      = [("networks", JVal.vstr "n2")] := by
  exact ⟨by decide, by decide⟩

/-- Claim C9, amended: within one LDIF object block, a repeated
attribute name accumulates into an ordered list only when the stored
value is truthy — a truthy existing scalar becomes the ordered
two-element list and an existing list (even an empty one) gets the new
value appended — while a falsy stored scalar (the empty string, as
produced by an empty base64 value) is overwritten by the repetition.
In particular the concrete block `uuid: u` / `networks: n1` /
`networks: n2` still loads as one package whose networks value is the
ordered list `["n1", "n2"]`. -/
theorem c9_ldif_accumulate :
    (∀ (lookup : JRec) (name s v : String),
      getA lookup name = some (.vstr s) → s ≠ "" →
      getA (ldifAddAttr lookup name v) name
        = some (.varr [.vstr s, .vstr v])) ∧
    (∀ (lookup : JRec) (name : String) (xs : List JVal) (v : String),
      getA lookup name = some (.varr xs) →
      getA (ldifAddAttr lookup name v) name
        = some (.varr (xs ++ [.vstr v]))) ∧
    (∀ (lookup : JRec) (name v : String),
      getA lookup name = some (.vstr "") →
      getA (ldifAddAttr lookup name v) name = some (.vstr v)) ∧
    (loadLdifPackages "uuid: u\nnetworks: n1\nnetworks: n2\n").1
      = [.vobj [("uuid", .vstr "u"),
                ("networks", .varr [.vstr "n1", .vstr "n2"])]] := by
  refine ⟨?_, ?_, ?_, by decide⟩
  · intro lookup name s v hg hs
    unfold ldifAddAttr
    rw [hg]
    simp [truthyV, hs, getA_setA_self]
  · intro lookup name xs v hg
    unfold ldifAddAttr
    rw [hg]
    simp [truthyV, getA_setA_self]
  · intro lookup name v hg
    unfold ldifAddAttr
    rw [hg]
    simp [truthyV, getA_setA_self]

/-- Claim C9, witness: accumulating into a truthy scalar, into an
existing list, and overwriting a falsy empty-string scalar. -/
theorem c9_ldif_accumulate_witness :
    getA (ldifAddAttr [("networks", JVal.vstr "n1")] "networks" "n2")
      "networks" = some (.varr [.vstr "n1", .vstr "n2"]) ∧
    getA (ldifAddAttr [("networks", JVal.varr [JVal.vstr "n1", JVal.vstr "n2"])]
        "networks" "n3") "networks"
      = some (.varr [.vstr "n1", .vstr "n2", .vstr "n3"]) ∧
    getA (ldifAddAttr [("networks", JVal.vstr "")] "networks" "n2")
      "networks" = some (.vstr "n2") :=
  ⟨c9_ldif_accumulate.1 [("networks", JVal.vstr "n1")] "networks" "n1" "n2"
      rfl (by decide),
   c9_ldif_accumulate.2.1 [("networks", JVal.varr [JVal.vstr "n1", JVal.vstr "n2"])]
      "networks" [JVal.vstr "n1", JVal.vstr "n2"] "n3" rfl,
   c9_ldif_accumulate.2.2.1 [("networks", JVal.vstr "")] "networks" "n2" rfl⟩

/-! Claim C10. -/

theorem ldifStep_nonblank (st : LdifSt) (l : String) (h : l ≠ "") :
    (ldifStep st l).pkgs = st.pkgs := by
  unfold ldifStep
  rw [if_neg h]
  cases hm : matchLdifLine l with
  | none => rfl
  | some p => rfl

theorem ldifFold_noblank_aux (ls : List String) (st : LdifSt)
    (h : ∀ l ∈ ls, l ≠ "") : (List.foldl ldifStep st ls).pkgs = st.pkgs := by
  induction ls generalizing st with
  | nil => rfl
  | cons a as ih =>
      simp only [List.foldl_cons]
      rw [ih _ (fun l hl => h l (List.mem_cons_of_mem _ hl)),
          ldifStep_nonblank _ _ (h a (List.mem_cons_self _ _))]

/-- Claim C10: the LDIF loader only emits an assembled object when a
blank line follows it — over any sequence of lines with no blank line
at all, nothing is ever emitted, and concretely the one-line file
`uuid: u` without a trailing newline loads zero packages while the same
file with a trailing newline loads the package. -/
theorem c10_ldif_final_block (ls : List String) (h : ∀ l ∈ ls, l ≠ "") :
    (ldifFold ls).pkgs = [] ∧
    (loadLdifPackages "uuid: u").1 = [] ∧
    (loadLdifPackages "uuid: u\n").1 = [JVal.vobj [("uuid", JVal.vstr "u")]] :=
  ⟨ldifFold_noblank_aux ls ldifInit h, by decide, by decide⟩

/-- Claim C10, witness: a two-line block with no terminating blank
line. -/
theorem c10_ldif_final_block_witness :
    (ldifFold ["uuid: u", "networks: n1"]).pkgs = [] :=
  (c10_ldif_final_block ["uuid: u", "networks: n1"] (by decide)).1
